import Mathlib

/-
Verification of the DynamoDB test-fixture adapter (class DynamoFx in
src/index.js) against its natural-language specification.

The embedding is shallow: JavaScript values are modelled by the inductive
type JSValue; attribute access with optional chaining, as used by getKey,
is modelled by JSValue.getAttr, which yields JSValue.undefined on any
receiver that is not an object with the attribute present.  The storage
client (AWS DynamoDBDocument) is external to the repository, so it is
modelled as an opaque response function Client; each fixture method is
embedded as a pure function returning the list of requests it issues, the
result it passes back, and the (unchanged) instance state.
-/

mutual
inductive JSValue where
  | undefined : JSValue
  | null : JSValue
  | bool : Bool → JSValue
  | num : Int → JSValue
  | str : String → JSValue
  | obj : JSFields → JSValue
inductive JSFields where
  | nil : JSFields
  | cons : String → JSValue → JSFields → JSFields
end

deriving instance DecidableEq for JSValue

/-- Attribute lookup in an object literal: first binding of the name wins
(JavaScript objects have no duplicate keys). -/
def JSFields.lookup : JSFields → String → Option JSValue
  | JSFields.nil, _ => none
  | JSFields.cons n v rest, name => if n = name then some v else JSFields.lookup rest name

/-- Model of the JavaScript expression v?.name: undefined when v is
null or undefined, undefined when v is a primitive without the attribute,
and the stored value when v is an object carrying the attribute. -/
def JSValue.getAttr (v : JSValue) (name : String) : JSValue :=
  match v with
  | JSValue.obj fields =>
    match fields.lookup name with
    | some w => w
    | none => JSValue.undefined
  | _ => JSValue.undefined

/-- A request issued to the storage client, carrying the table name and
the payload, mirroring the argument objects built in src/index.js. -/
inductive Request where
  | put : String → JSValue → Request
  | delete : String → JSValue → Request
  | get : String → JSValue → Request
deriving DecidableEq

/-- The table name a request references. -/
def Request.table : Request → String
  | Request.put t _ => t
  | Request.delete t _ => t
  | Request.get t _ => t

/-- The storage client, modelled as an opaque response function: each
request either succeeds with a result value or raises an error value. -/
def Client := Request → Except JSValue JSValue

/-- The fixture instance state: the table name and client handle fixed by
the constructor, and the tracked-data sequence owned by the inherited
fixture lifecycle. -/
structure DynamoFx where
  tableName : String
  db : Client
  data : List JSValue

/-- Embedding of DynamoFx.getKey (src/index.js lines 66-79): extract the
composite key when both partitionKey and sortKey are present, else the
simple id key when present, else return the input unchanged. -/
def DynamoFx.getKey (_fx : DynamoFx) (keyOrItem : JSValue) : JSValue :=
  if keyOrItem.getAttr "partitionKey" ≠ JSValue.undefined ∧
      keyOrItem.getAttr "sortKey" ≠ JSValue.undefined then
    JSValue.obj (JSFields.cons "partitionKey" (keyOrItem.getAttr "partitionKey")
      (JSFields.cons "sortKey" (keyOrItem.getAttr "sortKey") JSFields.nil))
  else if keyOrItem.getAttr "id" ≠ JSValue.undefined then
    JSValue.obj (JSFields.cons "id" (keyOrItem.getAttr "id") JSFields.nil)
  else
    keyOrItem

/-- The request built by DynamoFx.insert (src/index.js line 37). -/
def DynamoFx.insertReq (fx : DynamoFx) (item : JSValue) : Request :=
  Request.put fx.tableName item

/-- The request built by DynamoFx.remove (src/index.js lines 46-47). -/
def DynamoFx.removeReq (fx : DynamoFx) (keyOrItem : JSValue) : Request :=
  Request.delete fx.tableName (fx.getKey keyOrItem)

/-- The request built by DynamoFx.get (src/index.js lines 56-57). -/
def DynamoFx.getReq (fx : DynamoFx) (keyOrItem : JSValue) : Request :=
  Request.get fx.tableName (fx.getKey keyOrItem)

/-- The observable outcome of one fixture method call: the requests it
issued to the storage client and the result it returned. -/
structure Effect where
  requests : List Request
  result : Except JSValue JSValue

/-- Embedding of DynamoFx.insert (src/index.js lines 36-38): one put
request, the client result returned as-is, instance state untouched. -/
def DynamoFx.insert (fx : DynamoFx) (item : JSValue) : Effect × DynamoFx :=
  (⟨[fx.insertReq item], fx.db (fx.insertReq item)⟩, fx)

/-- Embedding of DynamoFx.remove (src/index.js lines 45-48): normalize via
getKey, one delete request, client result returned as-is. -/
def DynamoFx.remove (fx : DynamoFx) (keyOrItem : JSValue) : Effect × DynamoFx :=
  (⟨[fx.removeReq keyOrItem], fx.db (fx.removeReq keyOrItem)⟩, fx)

/-- Embedding of DynamoFx.get (src/index.js lines 55-58): normalize via
getKey, one get request, client result returned as-is. -/
def DynamoFx.get (fx : DynamoFx) (keyOrItem : JSValue) : Effect × DynamoFx :=
  (⟨[fx.getReq keyOrItem], fx.db (fx.getReq keyOrItem)⟩, fx)

/-- Sample client that accepts every request. -/
def okClient : Client := fun _ => Except.ok (JSValue.obj JSFields.nil)

/-- Sample client that rejects every request with the error value boom. -/
def errClient : Client := fun _ => Except.error (JSValue.str "boom")

/-- A concrete fixture over table users, used by witnesses. -/
def sampleFx : DynamoFx := ⟨"users", okClient, []⟩

/-- A concrete fixture over table orders, used by witnesses. -/
def otherFx : DynamoFx := ⟨"orders", okClient, []⟩

/-- A concrete fixture whose client rejects everything, used by witnesses. -/
def errFx : DynamoFx := ⟨"users", errClient, []⟩

/-- Helper: looking up the first attribute of an object. -/
theorem getAttr_head (n : String) (v : JSValue) (rest : JSFields) :
    (JSValue.obj (JSFields.cons n v rest)).getAttr n = v := by
  simp [JSValue.getAttr, JSFields.lookup]

/-- Helper: an attribute lookup skips a head field with a different name. -/
theorem getAttr_tail (n m : String) (v : JSValue) (rest : JSFields) (h : n ≠ m) :
    (JSValue.obj (JSFields.cons n v rest)).getAttr m = (JSValue.obj rest).getAttr m := by
  simp [JSValue.getAttr, JSFields.lookup, h]

/-- Helper: the composite branch of getKey. -/
theorem getKey_case_composite (fx : DynamoFx) (k : JSValue)
    (h1 : k.getAttr "partitionKey" ≠ JSValue.undefined)
    (h2 : k.getAttr "sortKey" ≠ JSValue.undefined) :
    fx.getKey k = JSValue.obj (JSFields.cons "partitionKey" (k.getAttr "partitionKey")
      (JSFields.cons "sortKey" (k.getAttr "sortKey") JSFields.nil)) := by
  unfold DynamoFx.getKey
  rw [if_pos ⟨h1, h2⟩]

/-- Helper: the simple-id branch of getKey. -/
theorem getKey_case_id (fx : DynamoFx) (k : JSValue)
    (hid : k.getAttr "id" ≠ JSValue.undefined)
    (hnc : ¬(k.getAttr "partitionKey" ≠ JSValue.undefined ∧
        k.getAttr "sortKey" ≠ JSValue.undefined)) :
    fx.getKey k = JSValue.obj (JSFields.cons "id" (k.getAttr "id") JSFields.nil) := by
  unfold DynamoFx.getKey
  rw [if_neg hnc, if_pos hid]

/-- Helper: the fallback branch of getKey. -/
theorem getKey_case_fallback (fx : DynamoFx) (k : JSValue)
    (hnc : ¬(k.getAttr "partitionKey" ≠ JSValue.undefined ∧
        k.getAttr "sortKey" ≠ JSValue.undefined))
    (hid : k.getAttr "id" = JSValue.undefined) :
    fx.getKey k = k := by
  unfold DynamoFx.getKey
  rw [if_neg hnc, if_neg (by simp [hid])]

/-- Helper: getKey is idempotent; the key extracted from an item is left
unchanged by a second normalization. -/
theorem getKey_idem (fx : DynamoFx) (k : JSValue) :
    fx.getKey (fx.getKey k) = fx.getKey k := by
  by_cases h1 : k.getAttr "partitionKey" ≠ JSValue.undefined ∧
      k.getAttr "sortKey" ≠ JSValue.undefined
  · obtain ⟨ha, hb⟩ := h1
    rw [getKey_case_composite fx k ha hb]
    have e1 : (JSValue.obj (JSFields.cons "partitionKey" (k.getAttr "partitionKey")
        (JSFields.cons "sortKey" (k.getAttr "sortKey") JSFields.nil))).getAttr "partitionKey"
        = k.getAttr "partitionKey" := getAttr_head _ _ _
    have e2 : (JSValue.obj (JSFields.cons "partitionKey" (k.getAttr "partitionKey")
        (JSFields.cons "sortKey" (k.getAttr "sortKey") JSFields.nil))).getAttr "sortKey"
        = k.getAttr "sortKey" := by
      rw [getAttr_tail _ _ _ _ (by decide), getAttr_head]
    rw [getKey_case_composite fx _ (by rw [e1]; exact ha) (by rw [e2]; exact hb), e1, e2]
  · by_cases h2 : k.getAttr "id" ≠ JSValue.undefined
    · rw [getKey_case_id fx k h2 h1]
      have e3 : (JSValue.obj (JSFields.cons "id" (k.getAttr "id") JSFields.nil)).getAttr "id"
          = k.getAttr "id" := getAttr_head _ _ _
      have e4 : (JSValue.obj (JSFields.cons "id" (k.getAttr "id") JSFields.nil)).getAttr
          "partitionKey" = JSValue.undefined := by
        rw [getAttr_tail _ _ _ _ (by decide)]
        simp [JSValue.getAttr, JSFields.lookup]
      rw [getKey_case_id fx _ (by rw [e3]; exact h2) (by rw [e4]; simp), e3]
    · rw [not_not] at h2
      rw [getKey_case_fallback fx k h1 h2]
      exact getKey_case_fallback fx k h1 h2

/-- C1: whenever the input has both a partitionKey and a sortKey attribute,
getKey returns exactly those two attributes, whatever else (id included)
the input carries. -/
theorem getKey_composite_rule (fx : DynamoFx) (k : JSValue)
    (h1 : k.getAttr "partitionKey" ≠ JSValue.undefined)
    (h2 : k.getAttr "sortKey" ≠ JSValue.undefined) :
    fx.getKey k = JSValue.obj (JSFields.cons "partitionKey" (k.getAttr "partitionKey")
      (JSFields.cons "sortKey" (k.getAttr "sortKey") JSFields.nil)) :=
  getKey_case_composite fx k h1 h2

/-- A composite-key item also carrying an id and a data attribute. -/
def compositeItem : JSValue :=
  JSValue.obj (JSFields.cons "id" (JSValue.num 7)
    (JSFields.cons "partitionKey" (JSValue.str "u1")
      (JSFields.cons "sortKey" (JSValue.str "o1")
        (JSFields.cons "amount" (JSValue.num 10) JSFields.nil))))

/-- Witness for C1 at a concrete item that also has an id attribute. -/
theorem getKey_composite_rule_witness :
    sampleFx.getKey compositeItem
      = JSValue.obj (JSFields.cons "partitionKey" (JSValue.str "u1")
          (JSFields.cons "sortKey" (JSValue.str "o1") JSFields.nil)) :=
  getKey_composite_rule sampleFx compositeItem (by decide) (by decide)

/-- An item carrying id together with partitionKey and sortKey. -/
def idCompositeItem : JSValue :=
  JSValue.obj (JSFields.cons "id" (JSValue.num 1)
    (JSFields.cons "partitionKey" (JSValue.num 2)
      (JSFields.cons "sortKey" (JSValue.num 3) JSFields.nil)))

/-- C2 counterexample: an item with an id attribute for which getKey does
not return the mapping with only that id — the composite branch wins. -/
theorem getKey_id_claim_counterexample :
    sampleFx.getKey idCompositeItem
      ≠ JSValue.obj (JSFields.cons "id" (JSValue.num 1) JSFields.nil) := by
  decide

/-- C2 (amended): for items with an id attribute and not both partitionKey
and sortKey attributes, getKey returns exactly the id mapping. -/
theorem getKey_id_rule (fx : DynamoFx) (k : JSValue)
    (hid : k.getAttr "id" ≠ JSValue.undefined)
    (hnc : ¬(k.getAttr "partitionKey" ≠ JSValue.undefined ∧
        k.getAttr "sortKey" ≠ JSValue.undefined)) :
    fx.getKey k = JSValue.obj (JSFields.cons "id" (k.getAttr "id") JSFields.nil) :=
  getKey_case_id fx k hid hnc

/-- A simple-key item with extra attributes. -/
def simpleItem : JSValue :=
  JSValue.obj (JSFields.cons "id" (JSValue.str "user1")
    (JSFields.cons "name" (JSValue.str "John") JSFields.nil))

/-- Witness for the amended C2 at a concrete simple-key item. -/
theorem getKey_id_rule_witness :
    sampleFx.getKey simpleItem
      = JSValue.obj (JSFields.cons "id" (JSValue.str "user1") JSFields.nil) :=
  getKey_id_rule sampleFx simpleItem (by decide) (by decide)

/-- C3: inputs matching neither key shape are returned unchanged, bare
strings included. -/
theorem getKey_fallback_identity (fx : DynamoFx) (k : JSValue)
    (hnc : ¬(k.getAttr "partitionKey" ≠ JSValue.undefined ∧
        k.getAttr "sortKey" ≠ JSValue.undefined))
    (hid : k.getAttr "id" = JSValue.undefined) :
    fx.getKey k = k :=
  getKey_case_fallback fx k hnc hid

/-- Witness for C3 at a bare string input. -/
theorem getKey_fallback_identity_witness :
    sampleFx.getKey (JSValue.str "raw-key") = JSValue.str "raw-key" :=
  getKey_fallback_identity sampleFx (JSValue.str "raw-key") (by decide) (by decide)

/-- C4: remove and get each issue exactly one request, carrying the
fixture's table name and the getKey-normalized key, return the client's
result unchanged, and behave identically on a full item and on the bare
key extracted from it. -/
theorem remove_get_delegate (fx : DynamoFx) (k : JSValue) :
    (fx.remove k).1.requests = [Request.delete fx.tableName (fx.getKey k)] ∧
    (fx.remove k).1.result = fx.db (Request.delete fx.tableName (fx.getKey k)) ∧
    (fx.get k).1.requests = [Request.get fx.tableName (fx.getKey k)] ∧
    (fx.get k).1.result = fx.db (Request.get fx.tableName (fx.getKey k)) ∧
    fx.remove (fx.getKey k) = fx.remove k ∧
    fx.get (fx.getKey k) = fx.get k := by
  refine ⟨rfl, rfl, rfl, rfl, ?_, ?_⟩ <;>
    simp [DynamoFx.remove, DynamoFx.get, DynamoFx.removeReq, DynamoFx.getReq, getKey_idem]

/-- C5: an error raised by the storage client on the request issued by
insert, remove or get is returned to the caller as the identical error
value. -/
theorem storage_error_passthrough (fx : DynamoFx) (item k e : JSValue) :
    (fx.db (fx.insertReq item) = Except.error e →
      (fx.insert item).1.result = Except.error e) ∧
    (fx.db (fx.removeReq k) = Except.error e →
      (fx.remove k).1.result = Except.error e) ∧
    (fx.db (fx.getReq k) = Except.error e →
      (fx.get k).1.result = Except.error e) :=
  ⟨fun h => h, fun h => h, fun h => h⟩

/-- Witness for C5: a client rejecting every request with the error boom
sees that exact error surface from all three operations. -/
theorem storage_error_passthrough_witness :
    (errFx.insert (JSValue.str "x")).1.result = Except.error (JSValue.str "boom") ∧
    (errFx.remove (JSValue.str "x")).1.result = Except.error (JSValue.str "boom") ∧
    (errFx.get (JSValue.str "x")).1.result = Except.error (JSValue.str "boom") :=
  ⟨(storage_error_passthrough errFx (JSValue.str "x") (JSValue.str "x")
      (JSValue.str "boom")).1 rfl,
   (storage_error_passthrough errFx (JSValue.str "x") (JSValue.str "x")
      (JSValue.str "boom")).2.1 rfl,
   (storage_error_passthrough errFx (JSValue.str "x") (JSValue.str "x")
      (JSValue.str "boom")).2.2 rfl⟩

/-- C6: every request issued by insert, remove or get on a fixture carries
that fixture's table name, and never the table name of a second fixture
bound to a different table. -/
theorem table_isolation (fx other : DynamoFx) (item k : JSValue) (r : Request)
    (hne : fx.tableName ≠ other.tableName)
    (hr : r ∈ (fx.insert item).1.requests ∨ r ∈ (fx.remove k).1.requests ∨
      r ∈ (fx.get k).1.requests) :
    r.table = fx.tableName ∧ r.table ≠ other.tableName := by
  have ht : r.table = fx.tableName := by
    rcases hr with h | h | h <;>
      simp only [DynamoFx.insert, DynamoFx.remove, DynamoFx.get, DynamoFx.insertReq,
        DynamoFx.removeReq, DynamoFx.getReq, List.mem_singleton] at h <;>
      rw [h] <;> rfl
  exact ⟨ht, ht ▸ hne⟩

/-- Witness for C6: the fixtures for tables users and orders, and the put
request issued by inserting a bare string into the first one. -/
theorem table_isolation_witness :
    (Request.put "users" (JSValue.str "x")).table = sampleFx.tableName ∧
    (Request.put "users" (JSValue.str "x")).table ≠ otherFx.tableName :=
  table_isolation sampleFx otherFx (JSValue.str "x") (JSValue.str "x")
    (Request.put "users" (JSValue.str "x")) (by decide) (Or.inl (by decide))

/-- C7: getKey is pure — its result depends only on its argument, never on
the instance it is invoked on, and the operations that invoke it leave the
instance state (table name, client handle, tracked data) unchanged. -/
theorem getKey_pure (fx fx2 : DynamoFx) (k : JSValue) :
    fx.getKey k = fx2.getKey k ∧ (fx.remove k).2 = fx ∧ (fx.get k).2 = fx :=
  ⟨rfl, rfl, rfl⟩

/-- C10: getKey is total on null and undefined — both are returned
unchanged, no error is raised — and remove and get then forward that value
as the key of the storage request. -/
theorem null_undefined_total (fx : DynamoFx) :
    fx.getKey JSValue.null = JSValue.null ∧
    fx.getKey JSValue.undefined = JSValue.undefined ∧
    (fx.remove JSValue.null).1.requests = [Request.delete fx.tableName JSValue.null] ∧
    (fx.remove JSValue.undefined).1.requests
      = [Request.delete fx.tableName JSValue.undefined] ∧
    (fx.get JSValue.null).1.requests = [Request.get fx.tableName JSValue.null] ∧
    (fx.get JSValue.undefined).1.requests
      = [Request.get fx.tableName JSValue.undefined] :=
  ⟨rfl, rfl, rfl, rfl, rfl, rfl⟩

/-- Modelled from the spec: the key attributes addressing a row, used by
the storage model for put. The repository does not contain the storage
engine; section 3 of the spec defines the two supported key shapes and
section 4.1 says a put overwrites the row addressed by the key attributes
of the item, so the model addresses rows by the composite pair when
present, else the id, else the whole value. -/
def rowKey (item : JSValue) : JSValue :=
  if item.getAttr "partitionKey" ≠ JSValue.undefined ∧
      item.getAttr "sortKey" ≠ JSValue.undefined then
    JSValue.obj (JSFields.cons "partitionKey" (item.getAttr "partitionKey")
      (JSFields.cons "sortKey" (item.getAttr "sortKey") JSFields.nil))
  else if item.getAttr "id" ≠ JSValue.undefined then
    JSValue.obj (JSFields.cons "id" (item.getAttr "id") JSFields.nil)
  else
    item

/-- The state of the modelled storage engine: rows addressed by the pair
of table name and key, newest binding first. -/
abbrev Store := List ((String × JSValue) × JSValue)

/-- Modelled from the spec: the storage client semantics of section 6. A
put overwrites the row addressed by the key attributes of the item; a
delete removes the row; a get succeeds with a result carrying the found
row in an Item attribute, or with no Item attribute when absent. -/
def runRequest (s : Store) : Request → Except JSValue JSValue × Store
  | Request.put t item =>
    (Except.ok (JSValue.obj JSFields.nil), ((t, rowKey item), item) :: s)
  | Request.delete t key =>
    (Except.ok (JSValue.obj JSFields.nil),
      s.filter (fun e => decide (e.1 ≠ (t, key))))
  | Request.get t key =>
    match s.lookup (t, key) with
    | some item =>
      (Except.ok (JSValue.obj (JSFields.cons "Item" item JSFields.nil)), s)
    | none => (Except.ok (JSValue.obj JSFields.nil), s)

/-- Helper: the adapter's getKey computes exactly the row key of the
storage model. -/
theorem getKey_eq_rowKey (fx : DynamoFx) (k : JSValue) : fx.getKey k = rowKey k := rfl

/-- C8: running the put request built by insert against the modelled
store and then the get request built by get at the extracted key returns
a result carrying exactly the inserted item. -/
theorem insert_get_roundtrip (fx : DynamoFx) (s : Store) (item : JSValue) :
    (runRequest ((runRequest s (fx.insertReq item)).2) (fx.getReq (fx.getKey item))).1
      = Except.ok (JSValue.obj (JSFields.cons "Item" item JSFields.nil)) := by
  have h : fx.getReq (fx.getKey item) = Request.get fx.tableName (rowKey item) := by
    unfold DynamoFx.getReq
    rw [getKey_idem, getKey_eq_rowKey]
  rw [h]
  simp [DynamoFx.insertReq, runRequest, List.lookup]

/-- Modelled from the spec: addData of the inherited fixture lifecycle
(section 6), which appends the item to the tracked sequence and returns
the new length. The lifecycle base class is an external package, absent
from the repository sources. -/
def DynamoFx.addData (fx : DynamoFx) (item : JSValue) : Nat × DynamoFx :=
  ((fx.data ++ [item]).length, ⟨fx.tableName, fx.db, fx.data ++ [item]⟩)

/-- C9: insert leaves the tracked-data sequence unchanged for every
client, hence both when the put succeeds and when it rejects, while
addData is the operation that appends to it. -/
theorem insert_preserves_tracking (fx : DynamoFx) (item : JSValue) :
    ((fx.insert item).2).data = fx.data ∧
    ((fx.addData item).2).data = fx.data ++ [item] :=
  ⟨rfl, rfl⟩
